import Mathlib

/-!
# Todoist API client (`internal/client`): project operations

A shallow embedding of `main.go` and `projects.go`.

* Go strings and byte slices are Lean `String`s; Go `int` is `Int` (64 bit range
  made explicit where a conversion can leave it).
* A Go result `(*Project, error)` is `Except GoError Project`; a result
  `(int, string, error)` is a triple with an `Option GoError`.
* Calls into the standard library whose outcome the package cannot compute
  (URL parsing, the JSON tokenizer, float parsing and printing, the
  out-of-range float to int conversion) are fields of `Lib`; the HTTP round
  trip is the `HTTPClient` field of `Client`.  Every theorem quantifies over
  them.
* A request body is kept as the JSON value that `json.Marshal` encodes.
* Each operation also returns the list of calls it made to `http.NewRequest`
  and `HTTPClient.Do`.
* Logging is left out.  A context only carries cancellation, which shows as an
  error of the HTTP round trip.
-/

namespace client

/-! ## Go values -/

/-- Go `error` values, by the call that creates them. -/
inductive GoError where
  /-- Made by `fmt.Errorf` in this package. -/
  | errorf (msg : String)
  /-- Returned by `http.NewRequest` (the URL does not parse). -/
  | url (msg : String)
  /-- Returned by `HTTPClient.Do`. -/
  | transport (msg : String)
  /-- Returned by `io.ReadAll` on the response body. -/
  | read (msg : String)
  /-- Returned by the JSON decoder when the body is not a JSON value. -/
  | jsonScan (msg : String)
  /-- The `*json.UnmarshalTypeError` with fields `Value`, `Type`, `Struct`, `Field`. -/
  | unmarshalType (value goType structName field : String)
  deriving DecidableEq, Repr

/-- The `Error()` method. -/
def GoError.Error : GoError → String
  | .errorf msg => msg
  | .url msg => msg
  | .transport msg => msg
  | .read msg => msg
  | .jsonScan msg => msg
  | .unmarshalType value goType structName field =>
    if structName ≠ "" ∨ field ≠ "" then
      "json: cannot unmarshal " ++ value ++ " into Go struct field " ++ structName ++ "." ++ field
        ++ " of type " ++ goType
    else
      "json: cannot unmarshal " ++ value ++ " into Go value of type " ++ goType

/-- A `float64`, by its exact value. -/
inductive Float64 where
  | finite (q : ℚ)
  | posInf
  | negInf
  | nan
  deriving DecidableEq

/-- The dynamic values an `any` holds after JSON decoding: `nil`, `string`,
`float64`, `bool`, `[]any` and `map[string]any` (members in document order). -/
inductive GoAny where
  | nil
  | str (s : String)
  | float64 (c : Float64)
  | bool (b : Bool)
  | slice (xs : List GoAny)
  | map (kvs : List (String × GoAny))

/-- A JSON value as the tokenizer delivers it; a number keeps its literal. -/
inductive Json where
  | null
  | bool (b : Bool)
  | num (lit : String)
  | str (s : String)
  | arr (xs : List Json)
  | obj (kvs : List (String × Json))

/-- The keys of a JSON object, in order (empty for any other value). -/
def Json.keys : Json → List String
  | .obj kvs => kvs.map Prod.fst
  | _ => []

/-- The value stored under a key of a JSON object. -/
def Json.get? (k : String) : Json → Option Json
  | .obj kvs => kvs.lookup k
  | _ => none

/-- Standard library behaviour the package relies on. -/
structure Lib where
  /-- The failure of `url.Parse` inside `http.NewRequest`, if any. -/
  parseURL : String → Option String
  /-- The first JSON value of the stream read by `json.NewDecoder(..).Decode`. -/
  jsonValue : String → Except String Json
  /-- The result of `strconv.ParseFloat(s, 64)`; `none` when out of range. -/
  parseFloat : String → Option Float64
  /-- The implementation-dependent result of `int(c)` when `c` does not fit. -/
  floatToInt : Float64 → Int
  /-- The result of `fmt.Sprintf("%v", v)`. -/
  sprintV : GoAny → String

/-- The function `strconv.Itoa`. -/
def Itoa (i : Int) : String := toString i

/-- Two's complement wrap into the range of a 64 bit `int`. -/
def wrapInt64 (z : Int) : Int := (z + 2 ^ 63) % 2 ^ 64 - 2 ^ 63

/-- The conversion `int(c)`: truncation toward zero when the result fits. -/
def float64ToInt (L : Lib) (c : Float64) : Int :=
  match c with
  | .finite q =>
    if -(2 ^ 63) ≤ Int.tdiv q.num q.den ∧ Int.tdiv q.num q.den < 2 ^ 63 then Int.tdiv q.num q.den
    else wrapInt64 (L.floatToInt c)
  | _ => wrapInt64 (L.floatToInt c)

/-- The function `strconv.ParseInt(s, 10, 64)`. -/
def parseInt64 (s : String) : Option Int :=
  let body : List Char :=
    match s.toList with
    | '-' :: r => r
    | '+' :: r => r
    | r => r
  let neg : Bool :=
    match s.toList with
    | '-' :: _ => true
    | _ => false
  if body = [] ∨ ¬ body.all Char.isDigit then none
  else
    let n : Int := body.foldl (fun a d => 10 * a + ((d.toNat - 48 : Nat) : Int)) 0
    let z : Int := if neg then -n else n
    if -(2 ^ 63) ≤ z ∧ z < 2 ^ 63 then some z else none

/-! ## projects.go: data and colours -/

structure Project where
  ID : String
  Name : String
  CommentCount : Int
  Color : String
  IsShared : Bool
  Order : Int
  IsFavorite : Bool
  IsInboxProject : Bool
  IsTeamInbox : Bool
  ViewStyle : String
  URL : String
  ParentID : String
  deriving DecidableEq, Repr

/-- The zero value `Project{}`. -/
def Project.zero : Project :=
  { ID := "", Name := "", CommentCount := 0, Color := "", IsShared := false, Order := 0,
    IsFavorite := false, IsInboxProject := false, IsTeamInbox := false, ViewStyle := "",
    URL := "", ParentID := "" }

structure projectV1 where
  ID : String
  Name : String
  Color : GoAny
  IsShared : Bool
  ChildOrder : Int
  IsFavorite : Bool
  InboxProject : Bool
  IsTeamInbox : Bool
  ViewStyle : String
  URL : String
  ParentID : String

/-- The zero value of `projectV1` (`var v1 projectV1`). -/
def projectV1.zero : projectV1 :=
  { ID := "", Name := "", Color := .nil, IsShared := false, ChildOrder := 0,
    IsFavorite := false, InboxProject := false, IsTeamInbox := false, ViewStyle := "",
    URL := "", ParentID := "" }

/-- The map `todoistColorIDToName`, as an association list. -/
def todoistColorIDToName : List (Int × String) :=
  [ (30, "berry_red"),
    (31, "red"),
    (32, "orange"),
    (33, "yellow"),
    (34, "olive_green"),
    (35, "lime_green"),
    (36, "green"),
    (37, "mint_green"),
    (38, "teal"),
    (39, "sky_blue"),
    (40, "light_blue"),
    (41, "blue"),
    (42, "grape"),
    (43, "violet"),
    (44, "lavender"),
    (45, "magenta"),
    (46, "salmon"),
    (47, "charcoal"),
    (48, "grey"),
    (49, "taupe") ]

/-- The function `colorToString`; the last three cases are the `default` branch. -/
def colorToString (L : Lib) (v : GoAny) : String :=
  match v with
  | .nil => ""
  | .str c => c
  | .float64 c =>
    match todoistColorIDToName.lookup (float64ToInt L c) with
    | some name => name
    | none => Itoa (float64ToInt L c)
  | .bool b => L.sprintV (.bool b)
  | .slice xs => L.sprintV (.slice xs)
  | .map kvs => L.sprintV (.map kvs)

/-! ## encoding/json: decoding an object into a struct -/

/-- Case folding of one rune of a key, as far as it can reach an ASCII letter:
lower case ASCII, the long s (U+017F) and the Kelvin sign (U+212A). -/
def foldRune (c : Char) : Char :=
  if c.isLower then c.toUpper
  else if c = Char.ofNat 0x17F then 'S'
  else if c = Char.ofNat 0x212A then 'K'
  else c

def foldName (s : String) : String := String.mk (s.toList.map foldRune)

/-- The struct field a key selects: the field with exactly that name, else the
first field whose name equals the key under case folding. -/
def findField {F : Type} (all : List F) (tag : F → String) (key : String) : Option F :=
  match all.find? (fun f => tag f == key) with
  | some f => some f
  | none => all.find? (fun f => foldName (tag f) == foldName key)

/-- Storing a JSON value into a `string` field. -/
def storeString (structName field : String) (old : String) : Json → String × Option GoError
  | .str s => (s, none)
  | .null => (old, none)
  | .bool _ => (old, some (.unmarshalType "bool" "string" structName field))
  | .num _ => (old, some (.unmarshalType "number" "string" structName field))
  | .arr _ => (old, some (.unmarshalType "array" "string" structName field))
  | .obj _ => (old, some (.unmarshalType "object" "string" structName field))

/-- Storing a JSON value into a `bool` field. -/
def storeBool (structName field : String) (old : Bool) : Json → Bool × Option GoError
  | .bool b => (b, none)
  | .null => (old, none)
  | .str _ => (old, some (.unmarshalType "string" "bool" structName field))
  | .num _ => (old, some (.unmarshalType "number" "bool" structName field))
  | .arr _ => (old, some (.unmarshalType "array" "bool" structName field))
  | .obj _ => (old, some (.unmarshalType "object" "bool" structName field))

/-- Storing a JSON value into an `int` field. -/
def storeInt (structName field : String) (old : Int) : Json → Int × Option GoError
  | .num lit =>
    match parseInt64 lit with
    | some n => (n, none)
    | none => (old, some (.unmarshalType ("number " ++ lit) "int" structName field))
  | .null => (old, none)
  | .str _ => (old, some (.unmarshalType "string" "int" structName field))
  | .bool _ => (old, some (.unmarshalType "bool" "int" structName field))
  | .arr _ => (old, some (.unmarshalType "array" "int" structName field))
  | .obj _ => (old, some (.unmarshalType "object" "int" structName field))

mutual
/-- The value built for a JSON value inside an `any` (`valueInterface`); a number
that does not convert leaves `nil` and records the error. -/
def valueInterface (L : Lib) (structName field : String) : Json → GoAny × Option GoError
  | .null => (.nil, none)
  | .bool b => (.bool b, none)
  | .str s => (.str s, none)
  | .num lit =>
    match L.parseFloat lit with
    | some c => (.float64 c, none)
    | none => (.nil, some (.unmarshalType ("number " ++ lit) "float64" structName field))
  | .arr xs =>
    let r := arrayInterface L structName field xs
    (.slice r.1, r.2)
  | .obj kvs =>
    let r := objectInterface L structName field kvs
    (.map r.1, r.2)
/-- The elements of `[]any`, with the first error recorded. -/
def arrayInterface (L : Lib) (structName field : String) :
    List Json → List GoAny × Option GoError
  | [] => ([], none)
  | x :: xs =>
    let a := valueInterface L structName field x
    let r := arrayInterface L structName field xs
    (a.1 :: r.1, a.2 <|> r.2)
/-- The members of `map[string]any`, with the first error recorded. -/
def objectInterface (L : Lib) (structName field : String) :
    List (String × Json) → List (String × GoAny) × Option GoError
  | [] => ([], none)
  | (k, x) :: xs =>
    let a := valueInterface L structName field x
    let r := objectInterface L structName field xs
    ((k, a.1) :: r.1, a.2 <|> r.2)
end

/-- Storing a JSON value into an `any` field. -/
def storeAny (L : Lib) (structName field : String) (old : GoAny) : Json → GoAny × Option GoError
  | .null => (.nil, none)
  | .num lit =>
    match L.parseFloat lit with
    | some c => (.float64 c, none)
    | none => (old, some (.unmarshalType ("number " ++ lit) "float64" structName field))
  | j => valueInterface L structName field j

/-- Decoding the members of a JSON object into a struct: each member whose key
selects a field is stored into it, in order; the first error is kept and
decoding goes on. -/
def decodeObject {F S : Type} (all : List F) (tag : F → String)
    (store : F → Json → S → S × Option GoError) (members : List (String × Json))
    (init : S × Option GoError) : S × Option GoError :=
  members.foldl
    (fun acc kv =>
      match findField all tag kv.1 with
      | none => acc
      | some f => ((store f kv.2 acc.1).1, acc.2 <|> (store f kv.2 acc.1).2))
    init

/-- Decoding a JSON value into a struct of type `typeName`. -/
def decodeStruct {F S : Type} (typeName : String) (all : List F) (tag : F → String)
    (store : F → Json → S → S × Option GoError) (j : Json) (old : S) : S × Option GoError :=
  match j with
  | .obj members => decodeObject all tag store members (old, none)
  | .null => (old, none)
  | .bool _ => (old, some (.unmarshalType "bool" typeName "" ""))
  | .num _ => (old, some (.unmarshalType "number" typeName "" ""))
  | .str _ => (old, some (.unmarshalType "string" typeName "" ""))
  | .arr _ => (old, some (.unmarshalType "array" typeName "" ""))

/-- The fields of `Project`, in declaration order. -/
inductive ProjectField where
  | ID | Name | CommentCount | Color | IsShared | Order | IsFavorite | IsInboxProject
  | IsTeamInbox | ViewStyle | URL | ParentID
  deriving DecidableEq, Repr

def ProjectField.all : List ProjectField :=
  [.ID, .Name, .CommentCount, .Color, .IsShared, .Order, .IsFavorite, .IsInboxProject,
   .IsTeamInbox, .ViewStyle, .URL, .ParentID]

/-- The `json` tag of each field of `Project`. -/
def ProjectField.tag : ProjectField → String
  | .ID => "id"
  | .Name => "name"
  | .CommentCount => "comment_count"
  | .Color => "color"
  | .IsShared => "is_shared"
  | .Order => "order"
  | .IsFavorite => "is_favorite"
  | .IsInboxProject => "is_inbox_project"
  | .IsTeamInbox => "is_team_inbox"
  | .ViewStyle => "view_style"
  | .URL => "url"
  | .ParentID => "parent_id"

def Project.store (f : ProjectField) (j : Json) (p : Project) : Project × Option GoError :=
  match f with
  | .ID => ({ p with ID := (storeString "Project" "id" p.ID j).1 },
      (storeString "Project" "id" p.ID j).2)
  | .Name => ({ p with Name := (storeString "Project" "name" p.Name j).1 },
      (storeString "Project" "name" p.Name j).2)
  | .CommentCount =>
    ({ p with CommentCount := (storeInt "Project" "comment_count" p.CommentCount j).1 },
      (storeInt "Project" "comment_count" p.CommentCount j).2)
  | .Color => ({ p with Color := (storeString "Project" "color" p.Color j).1 },
      (storeString "Project" "color" p.Color j).2)
  | .IsShared => ({ p with IsShared := (storeBool "Project" "is_shared" p.IsShared j).1 },
      (storeBool "Project" "is_shared" p.IsShared j).2)
  | .Order => ({ p with Order := (storeInt "Project" "order" p.Order j).1 },
      (storeInt "Project" "order" p.Order j).2)
  | .IsFavorite => ({ p with IsFavorite := (storeBool "Project" "is_favorite" p.IsFavorite j).1 },
      (storeBool "Project" "is_favorite" p.IsFavorite j).2)
  | .IsInboxProject =>
    ({ p with IsInboxProject := (storeBool "Project" "is_inbox_project" p.IsInboxProject j).1 },
      (storeBool "Project" "is_inbox_project" p.IsInboxProject j).2)
  | .IsTeamInbox =>
    ({ p with IsTeamInbox := (storeBool "Project" "is_team_inbox" p.IsTeamInbox j).1 },
      (storeBool "Project" "is_team_inbox" p.IsTeamInbox j).2)
  | .ViewStyle => ({ p with ViewStyle := (storeString "Project" "view_style" p.ViewStyle j).1 },
      (storeString "Project" "view_style" p.ViewStyle j).2)
  | .URL => ({ p with URL := (storeString "Project" "url" p.URL j).1 },
      (storeString "Project" "url" p.URL j).2)
  | .ParentID => ({ p with ParentID := (storeString "Project" "parent_id" p.ParentID j).1 },
      (storeString "Project" "parent_id" p.ParentID j).2)

/-- Decoding a response into `*Project` (`Decode(&v)` with `v = &res`). -/
def Project.unmarshal (j : Json) (old : Project) : Project × Option GoError :=
  decodeStruct "client.Project" ProjectField.all ProjectField.tag Project.store j old

/-- The fields of `projectV1`, in declaration order. -/
inductive V1Field where
  | ID | Name | Color | IsShared | ChildOrder | IsFavorite | InboxProject | IsTeamInbox
  | ViewStyle | URL | ParentID
  deriving DecidableEq, Repr

def V1Field.all : List V1Field :=
  [.ID, .Name, .Color, .IsShared, .ChildOrder, .IsFavorite, .InboxProject, .IsTeamInbox,
   .ViewStyle, .URL, .ParentID]

/-- The `json` tag of each field of `projectV1`. -/
def V1Field.tag : V1Field → String
  | .ID => "id"
  | .Name => "name"
  | .Color => "color"
  | .IsShared => "is_shared"
  | .ChildOrder => "child_order"
  | .IsFavorite => "is_favorite"
  | .InboxProject => "inbox_project"
  | .IsTeamInbox => "is_team_inbox"
  | .ViewStyle => "view_style"
  | .URL => "url"
  | .ParentID => "parent_id"

def projectV1.store (L : Lib) (f : V1Field) (j : Json) (p : projectV1) :
    projectV1 × Option GoError :=
  match f with
  | .ID => ({ p with ID := (storeString "projectV1" "id" p.ID j).1 },
      (storeString "projectV1" "id" p.ID j).2)
  | .Name => ({ p with Name := (storeString "projectV1" "name" p.Name j).1 },
      (storeString "projectV1" "name" p.Name j).2)
  | .Color => ({ p with Color := (storeAny L "projectV1" "color" p.Color j).1 },
      (storeAny L "projectV1" "color" p.Color j).2)
  | .IsShared => ({ p with IsShared := (storeBool "projectV1" "is_shared" p.IsShared j).1 },
      (storeBool "projectV1" "is_shared" p.IsShared j).2)
  | .ChildOrder =>
    ({ p with ChildOrder := (storeInt "projectV1" "child_order" p.ChildOrder j).1 },
      (storeInt "projectV1" "child_order" p.ChildOrder j).2)
  | .IsFavorite =>
    ({ p with IsFavorite := (storeBool "projectV1" "is_favorite" p.IsFavorite j).1 },
      (storeBool "projectV1" "is_favorite" p.IsFavorite j).2)
  | .InboxProject =>
    ({ p with InboxProject := (storeBool "projectV1" "inbox_project" p.InboxProject j).1 },
      (storeBool "projectV1" "inbox_project" p.InboxProject j).2)
  | .IsTeamInbox =>
    ({ p with IsTeamInbox := (storeBool "projectV1" "is_team_inbox" p.IsTeamInbox j).1 },
      (storeBool "projectV1" "is_team_inbox" p.IsTeamInbox j).2)
  | .ViewStyle =>
    ({ p with ViewStyle := (storeString "projectV1" "view_style" p.ViewStyle j).1 },
      (storeString "projectV1" "view_style" p.ViewStyle j).2)
  | .URL => ({ p with URL := (storeString "projectV1" "url" p.URL j).1 },
      (storeString "projectV1" "url" p.URL j).2)
  | .ParentID => ({ p with ParentID := (storeString "projectV1" "parent_id" p.ParentID j).1 },
      (storeString "projectV1" "parent_id" p.ParentID j).2)

/-- Decoding a response into `*projectV1` (`Decode(&v)` with `v = &v1`). -/
def projectV1.unmarshal (L : Lib) (j : Json) (old : projectV1) : projectV1 × Option GoError :=
  decodeStruct "client.projectV1" V1Field.all V1Field.tag (projectV1.store L) j old

/-! ## main.go: the transport wrapper -/

/-- The constant `BaseURL`. -/
def BaseURL : String := "https://api.todoist.com/api/v1"

/-- An `*http.Request`: method, URL, body and header entries. -/
structure Request where
  Method : String
  URL : String
  Body : Option Json
  Header : List (String × String)

/-- An `*http.Response`: the status code and the outcome of `io.ReadAll(res.Body)`. -/
structure Response where
  StatusCode : Int
  Body : Except String String

structure Client where
  BaseURL : String
  apiKey : String
  /-- The outcome of `c.HTTPClient.Do(req)`. -/
  HTTPClient : Request → Except String Response

/-- A call to the HTTP library made by an operation. -/
inductive Event where
  /-- A call `http.NewRequest(method, url, body)`. -/
  | newRequest (method url : String) (body : Option Json)
  /-- A call `c.HTTPClient.Do(req)`. -/
  | send (req : Request)

def NewClient (apiKey : String) (transport : Request → Except String Response) :
    Except GoError Client :=
  if apiKey = "" then .error (.errorf "token missing")
  else .ok { BaseURL := BaseURL, apiKey := apiKey, HTTPClient := transport }

/-- The call `http.NewRequest(method, url, body)`. -/
def NewRequest (L : Lib) (method url : String) (body : Option Json) : Except GoError Request :=
  match L.parseURL url with
  | some msg => .error (.url msg)
  | none => .ok { Method := method, URL := url, Body := body, Header := [] }

/-- The method `Header.Set`: the entry for `key` is replaced. -/
def headerSet (h : List (String × String)) (key value : String) : List (String × String) :=
  h.filter (fun kv => kv.1 ≠ key) ++ [(key, value)]

/-- What `sendRequest` returns, with the contents of the target `v` after the
call (`none` for a nil target) and the calls made. -/
structure SendResult (α : Type) where
  statusCode : Int
  response : String
  e : Option GoError
  v : Option α
  trace : List Event

/-- The request as sent: the three headers are set on it. -/
def withHeaders (c : Client) (req : Request) : Request :=
  { req with
    Header :=
      headerSet
        (headerSet (headerSet req.Header "Content-Type" "application/json; charset=utf-8")
          "Accept" "application/json; charset=utf-8")
        "Authorization" ("Bearer " ++ c.apiKey) }

/-- The text of the error returned for a status outside [200, 400). -/
def statusErrorText (statusCode : Int) (body : String) : String :=
  "unknown error, status code: " ++ Itoa statusCode ++ ", response: " ++ body

/-- The method `sendRequest`.  The target `v` is `none` for a nil interface and
`some t` for a pointer to a struct holding `t`; `unmarshal` is the decoding of a
JSON value into that struct. -/
def Client.sendRequest {α : Type} (L : Lib) (c : Client) (req : Request) (v : Option α)
    (unmarshal : Json → α → α × Option GoError) : SendResult α :=
  if c.apiKey = "" then
    { statusCode := 0, response := "", e := some (.errorf "api token missing"), v := v,
      trace := [] }
  else
    match c.HTTPClient (withHeaders c req) with
    | .error msg =>
      { statusCode := 0, response := "", e := some (.transport msg), v := v,
        trace := [.send (withHeaders c req)] }
    | .ok res =>
      match res.Body with
      | .error msg =>
        { statusCode := 0, response := "", e := some (.read msg), v := v,
          trace := [.send (withHeaders c req)] }
      | .ok body =>
        if res.StatusCode < 200 ∨ res.StatusCode ≥ 400 then
          { statusCode := res.StatusCode, response := body,
            e := some (.errorf (statusErrorText res.StatusCode body)), v := v,
            trace := [.send (withHeaders c req)] }
        else
          match v with
          | none =>
            { statusCode := res.StatusCode, response := "", e := none, v := none,
              trace := [.send (withHeaders c req)] }
          | some target =>
            match L.jsonValue body with
            | .error msg =>
              { statusCode := res.StatusCode, response := body, e := some (.jsonScan msg),
                v := some target, trace := [.send (withHeaders c req)] }
            | .ok j =>
              match (unmarshal j target).2 with
              | some err =>
                { statusCode := res.StatusCode, response := body, e := some err,
                  v := some (unmarshal j target).1, trace := [.send (withHeaders c req)] }
              | none =>
                { statusCode := res.StatusCode, response := body, e := none,
                  v := some (unmarshal j target).1, trace := [.send (withHeaders c req)] }

/-! ## projects.go: the four operations -/

/-- The method `GetProject`: the wire object is decoded into `projectV1` and copied
field by field into a `Project`. -/
def Client.GetProject (L : Lib) (c : Client) (projectId : String) :
    Except GoError Project × List Event :=
  match NewRequest L "GET" (c.BaseURL ++ "/projects/" ++ projectId) none with
  | .error err => (.error err, [.newRequest "GET" (c.BaseURL ++ "/projects/" ++ projectId) none])
  | .ok req =>
    match (c.sendRequest L req (some projectV1.zero) (projectV1.unmarshal L)).e,
        (c.sendRequest L req (some projectV1.zero) (projectV1.unmarshal L)).v with
    | some err, _ =>
      (.error err,
        .newRequest "GET" (c.BaseURL ++ "/projects/" ++ projectId) none ::
          (c.sendRequest L req (some projectV1.zero) (projectV1.unmarshal L)).trace)
    | none, v1 =>
      (.ok
          { ID := (v1.getD projectV1.zero).ID,
            Name := (v1.getD projectV1.zero).Name,
            CommentCount := 0,
            Color := colorToString L (v1.getD projectV1.zero).Color,
            IsShared := (v1.getD projectV1.zero).IsShared,
            Order := (v1.getD projectV1.zero).ChildOrder,
            IsFavorite := (v1.getD projectV1.zero).IsFavorite,
            IsInboxProject := (v1.getD projectV1.zero).InboxProject,
            IsTeamInbox := (v1.getD projectV1.zero).IsTeamInbox,
            ViewStyle := (v1.getD projectV1.zero).ViewStyle,
            URL := (v1.getD projectV1.zero).URL,
            ParentID := (v1.getD projectV1.zero).ParentID },
        .newRequest "GET" (c.BaseURL ++ "/projects/" ++ projectId) none ::
          (c.sendRequest L req (some projectV1.zero) (projectV1.unmarshal L)).trace)

structure CreateProject where
  Name : Option String
  ParentID : Option String
  Color : Option String
  IsFavorite : Option Bool
  ViewStyle : Option String

/-- The member written for a pointer field without `omitempty`: `null` when nil. -/
def always (key : String) (v : Option Json) : List (String × Json) :=
  [(key, v.getD .null)]

/-- The member written for a pointer field with `omitempty`: none when nil. -/
def omitempty (key : String) (v : Option Json) : List (String × Json) :=
  match v with
  | none => []
  | some j => [(key, j)]

/-- The value `json.Marshal(createProject)`; it cannot fail for this type. -/
def CreateProject.Marshal (p : CreateProject) : Json :=
  .obj (always "name" (p.Name.map .str)
    ++ omitempty "parent_id" (p.ParentID.map .str)
    ++ omitempty "color" (p.Color.map .str)
    ++ omitempty "is_favorite" (p.IsFavorite.map .bool)
    ++ omitempty "view_style" (p.ViewStyle.map .str))

/-- The method `CreateProject`: the response is decoded into `Project` itself. -/
def Client.CreateProject (L : Lib) (c : Client) (createProject : CreateProject) :
    Except GoError Project × List Event :=
  match NewRequest L "POST" (c.BaseURL ++ "/projects") (some createProject.Marshal) with
  | .error err =>
    (.error err, [.newRequest "POST" (c.BaseURL ++ "/projects") (some createProject.Marshal)])
  | .ok req =>
    match (c.sendRequest L req (some Project.zero) Project.unmarshal).e,
        (c.sendRequest L req (some Project.zero) Project.unmarshal).v with
    | some err, _ =>
      (.error err,
        .newRequest "POST" (c.BaseURL ++ "/projects") (some createProject.Marshal) ::
          (c.sendRequest L req (some Project.zero) Project.unmarshal).trace)
    | none, res =>
      (.ok (res.getD Project.zero),
        .newRequest "POST" (c.BaseURL ++ "/projects") (some createProject.Marshal) ::
          (c.sendRequest L req (some Project.zero) Project.unmarshal).trace)

structure UpdateProject where
  ID : Option String
  Name : Option String
  Color : Option String
  IsFavorite : Option Bool
  ViewStyle : Option String

/-- The value `json.Marshal(updateProject)`; it cannot fail for this type.  The
field `ID` carries no tag, so it is written under its Go name. -/
def UpdateProject.Marshal (p : UpdateProject) : Json :=
  .obj (always "ID" (p.ID.map .str)
    ++ omitempty "name" (p.Name.map .str)
    ++ omitempty "color" (p.Color.map .str)
    ++ omitempty "is_favorite" (p.IsFavorite.map .bool)
    ++ omitempty "view_style" (p.ViewStyle.map .str))

/-- The method `UpdateProject`.  The source marshals the payload first and tests
the identifier next; marshalling has no effect and cannot fail, so the test
comes first here.  The response is decoded into `Project` itself. -/
def Client.UpdateProject (L : Lib) (c : Client) (updateProject : UpdateProject) :
    Except GoError Project × List Event :=
  match updateProject.ID with
  | none => (.error (.errorf "missing project id"), [])
  | some id =>
    match NewRequest L "POST" (c.BaseURL ++ "/projects/" ++ id)
        (some updateProject.Marshal) with
    | .error err =>
      (.error err,
        [.newRequest "POST" (c.BaseURL ++ "/projects/" ++ id) (some updateProject.Marshal)])
    | .ok req =>
      match (c.sendRequest L req (some Project.zero) Project.unmarshal).e,
          (c.sendRequest L req (some Project.zero) Project.unmarshal).v with
      | some err, _ =>
        (.error err,
          .newRequest "POST" (c.BaseURL ++ "/projects/" ++ id) (some updateProject.Marshal) ::
            (c.sendRequest L req (some Project.zero) Project.unmarshal).trace)
      | none, res =>
        (.ok (res.getD Project.zero),
          .newRequest "POST" (c.BaseURL ++ "/projects/" ++ id) (some updateProject.Marshal) ::
            (c.sendRequest L req (some Project.zero) Project.unmarshal).trace)

/-- The method `DeleteProject`: `sendRequest` is called with a nil target. -/
def Client.DeleteProject (L : Lib) (c : Client) (projectId : String) :
    (Int × String × Option GoError) × List Event :=
  match NewRequest L "DELETE" (c.BaseURL ++ "/projects/" ++ projectId) none with
  | .error err =>
    ((0, "", some err), [.newRequest "DELETE" (c.BaseURL ++ "/projects/" ++ projectId) none])
  | .ok req =>
    match (c.sendRequest L req (none : Option Unit) (fun _ u => (u, none))).e with
    | some err =>
      ((-1, "", some err),
        .newRequest "DELETE" (c.BaseURL ++ "/projects/" ++ projectId) none ::
          (c.sendRequest L req (none : Option Unit) (fun _ u => (u, none))).trace)
    | none =>
      (((c.sendRequest L req (none : Option Unit) (fun _ u => (u, none))).statusCode,
          (c.sendRequest L req (none : Option Unit) (fun _ u => (u, none))).response, none),
        .newRequest "DELETE" (c.BaseURL ++ "/projects/" ++ projectId) none ::
          (c.sendRequest L req (none : Option Unit) (fun _ u => (u, none))).trace)

/-! ## Concrete inputs for the examples -/

def wireBody : String :=
  "\x7b\"id\":\"1\",\"name\":\"X\",\"child_order\":0,\"color\":37\x7d"

def wireJson : Json :=
  .obj [("id", .str "1"), ("name", .str "X"), ("child_order", .num "0"), ("color", .num "37")]

def namedBody : String :=
  "\x7b\"id\":\"2\",\"name\":\"Y\",\"child_order\":5,\"inbox_project\":true,\"color\":\"red\"\x7d"

def namedJson : Json :=
  .obj [("id", .str "2"), ("name", .str "Y"), ("child_order", .num "5"),
    ("inbox_project", .bool true), ("color", .str "red")]

def exampleLib : Lib :=
  { parseURL := fun _ => none,
    jsonValue := fun s =>
      if s = wireBody then .ok wireJson
      else if s = namedBody then .ok namedJson
      else if s = "\x7b\x7d" then .ok (.obj [])
      else .error "invalid character",
    parseFloat := fun s => if s = "37" then some (.finite 37) else none,
    floatToInt := fun _ => -(2 ^ 63),
    sprintV := fun _ => "" }

def exampleClient (status : Int) (body : String) : Client :=
  { BaseURL := BaseURL, apiKey := "token",
    HTTPClient := fun _ => .ok { StatusCode := status, Body := .ok body } }

def exampleUpdate : UpdateProject :=
  { ID := some "123", Name := some "new name", Color := none, IsFavorite := none,
    ViewStyle := none }

def emptyCreate : CreateProject :=
  { Name := none, ParentID := none, Color := none, IsFavorite := none, ViewStyle := none }

/-! ## Decimal strings -/

theorem digitChar_isDigit (d : Nat) (h : d < 10) : (Nat.digitChar d).isDigit = true := by
  interval_cases d <;> rfl

theorem toDigitsCore_isDigit (fuel : Nat) :
    ∀ (n : Nat) (acc : List Char), (∀ ch ∈ acc, ch.isDigit = true) →
      ∀ ch ∈ Nat.toDigitsCore 10 fuel n acc, ch.isDigit = true := by
  induction fuel with
  | zero => intro n acc hacc ch hch; exact hacc ch (by simpa [Nat.toDigitsCore] using hch)
  | succ fuel ih =>
    intro n acc hacc ch hch
    have hd : (Nat.digitChar (n % 10)).isDigit = true := digitChar_isDigit _ (Nat.mod_lt _ (by norm_num))
    have hacc2 : ∀ x ∈ Nat.digitChar (n % 10) :: acc, x.isDigit = true := by
      intro x hx
      rcases List.mem_cons.mp hx with h | h
      · rw [h]; exact hd
      · exact hacc x h
    simp only [Nat.toDigitsCore] at hch
    split at hch
    · exact hacc2 ch hch
    · exact ih _ _ hacc2 ch hch

theorem Itoa_chars (i : Int) : ∀ ch ∈ (Itoa i).toList, ch = '-' ∨ ch.isDigit = true := by
  intro ch hch
  cases i with
  | ofNat m =>
    right
    have : (Itoa (Int.ofNat m)).toList = Nat.toDigits 10 m := rfl
    rw [this] at hch
    exact toDigitsCore_isDigit _ _ [] (by simp) ch hch
  | negSucc m =>
    have : (Itoa (Int.negSucc m)).toList = '-' :: Nat.toDigits 10 (m + 1) := rfl
    rw [this] at hch
    rcases List.mem_cons.mp hch with h | h
    · left; exact h
    · right; exact toDigitsCore_isDigit _ _ [] (by simp) ch h

theorem Itoa_not_name (i : Int) : Itoa i ∉ todoistColorIDToName.map Prod.snd := by
  intro hmem
  have hall : (Itoa i).toList.all (fun ch => ch = '-' ∨ ch.isDigit = true) = true := by
    rw [List.all_eq_true]
    intro ch hch
    simpa using Itoa_chars i ch hch
  have hnames : ∀ name ∈ todoistColorIDToName.map Prod.snd,
      name.toList.all (fun ch => ch = '-' ∨ ch.isDigit = true) = false := by
    decide
  rw [hnames _ hmem] at hall
  exact Bool.noConfusion hall

example : Itoa 0 = "0" ∧ Itoa 29 = "29" ∧ Itoa 50 = "50" ∧ Itoa (-1) = "-1" := by decide

theorem float64ToInt_intCast (L : Lib) (n : Int) (h : -(2 ^ 63) ≤ n ∧ n < 2 ^ 63) :
    float64ToInt L (.finite (n : ℚ)) = n := by
  have hq : Int.tdiv (n : ℚ).num ((n : ℚ).den : Int) = n := by simp
  simp only [float64ToInt, hq]
  rw [if_pos h]

theorem wrapInt64_range (z : Int) : -(2 ^ 63) ≤ wrapInt64 z ∧ wrapInt64 z < 2 ^ 63 := by
  unfold wrapInt64
  have h1 : 0 ≤ (z + 2 ^ 63) % 2 ^ 64 := Int.emod_nonneg _ (by norm_num)
  have h2 : (z + 2 ^ 63) % 2 ^ 64 < 2 ^ 64 := Int.emod_lt_of_pos _ (by norm_num)
  constructor <;> omega

theorem float64ToInt_range (L : Lib) (c : Float64) :
    -(2 ^ 63) ≤ float64ToInt L c ∧ float64ToInt L c < 2 ^ 63 := by
  cases c with
  | finite q =>
    simp only [float64ToInt]
    split
    · assumption
    · exact wrapInt64_range _
  | posInf => exact wrapInt64_range _
  | negInf => exact wrapInt64_range _
  | nan => exact wrapInt64_range _

theorem lookup_outside (k : Int) (hout : k < 30 ∨ 49 < k) :
    todoistColorIDToName.lookup k = none := by
  have h : ∀ m : Int, 30 ≤ m → m ≤ 49 → (k == m) = false := by
    intro m h1 h2
    simp only [beq_eq_false_iff_ne, ne_eq]
    omega
  simp [todoistColorIDToName, List.lookup, h]

/-! ## Decoding lemmas -/

theorem decodeObject_nil {F S : Type} (all : List F) (tag : F → String)
    (store : F → Json → S → S × Option GoError) (init : S × Option GoError) :
    decodeObject all tag store [] init = init := rfl

theorem decodeObject_cons {F S : Type} (all : List F) (tag : F → String)
    (store : F → Json → S → S × Option GoError) (kv : String × Json)
    (members : List (String × Json)) (init : S × Option GoError) :
    decodeObject all tag store (kv :: members) init =
      decodeObject all tag store members
        (match findField all tag kv.1 with
          | none => init
          | some f => ((store f kv.2 init.1).1, init.2 <|> (store f kv.2 init.1).2)) := rfl

/-- A component of the struct that only the field `f0` writes keeps its value
when no member selects `f0`. -/
theorem decodeObject_untouched {F S β : Type} (all : List F) (tag : F → String)
    (store : F → Json → S → S × Option GoError) (proj : S → β) (f0 : F)
    (hstore : ∀ f j s, f ≠ f0 → proj (store f j s).1 = proj s) :
    ∀ (members : List (String × Json)) (init : S × Option GoError),
      (∀ kv ∈ members, findField all tag kv.1 ≠ some f0) →
      proj (decodeObject all tag store members init).1 = proj init.1 := by
  intro members
  induction members with
  | nil => intro init _; rfl
  | cons kv members ih =>
    intro init habs
    rw [decodeObject_cons, ih _ (fun x hx => habs x (List.mem_cons_of_mem _ hx))]
    have hkv := habs kv (List.mem_cons_self _ _)
    cases hf : findField all tag kv.1 with
    | none => rfl
    | some f =>
      have hne : f ≠ f0 := by
        intro h
        rw [hf, h] at hkv
        exact hkv rfl
      exact hstore f kv.2 init.1 hne

theorem decodeObject_append {F S : Type} (all : List F) (tag : F → String)
    (store : F → Json → S → S × Option GoError) (xs ys : List (String × Json))
    (init : S × Option GoError) :
    decodeObject all tag store (xs ++ ys) init =
      decodeObject all tag store ys (decodeObject all tag store xs init) := by
  simp [decodeObject, List.foldl_append]

/-- The component written by the field `f0` holds what the last member selecting
`f0` stored. -/
theorem decodeObject_last {F S β : Type} (all : List F) (tag : F → String)
    (store : F → Json → S → S × Option GoError) (proj : S → β) (f0 : F)
    (hstore : ∀ f j s, f ≠ f0 → proj (store f j s).1 = proj s)
    (pre post : List (String × Json)) (k : String) (val : Json)
    (hk : findField all tag k = some f0)
    (hpost : ∀ kv ∈ post, findField all tag kv.1 ≠ some f0) (init : S × Option GoError) :
    proj (decodeObject all tag store (pre ++ (k, val) :: post) init).1 =
      proj (store f0 val (decodeObject all tag store pre init).1).1 := by
  rw [decodeObject_append, decodeObject_cons,
    decodeObject_untouched all tag store proj f0 hstore post _ hpost]
  simp only [hk]

/-- When the error of a store depends on the field and the value only, decoding
is free of errors exactly when every member that selects a field stores without
error. -/
theorem decodeObject_error {F S : Type} (all : List F) (tag : F → String)
    (store : F → Json → S → S × Option GoError) (err : F → Json → Option GoError)
    (herr : ∀ f j s, (store f j s).2 = err f j) :
    ∀ (members : List (String × Json)) (init : S × Option GoError),
      ((decodeObject all tag store members init).2 = none ↔
        init.2 = none ∧ ∀ kv ∈ members, ∀ f, findField all tag kv.1 = some f → err f kv.2 = none) := by
  intro members
  induction members with
  | nil => intro init; simp [decodeObject_nil]
  | cons kv members ih =>
    intro init
    rw [decodeObject_cons, ih]
    cases hf : findField all tag kv.1 with
    | none => simp [hf]
    | some f =>
      simp only [herr, List.mem_cons, forall_eq_or_imp, hf, Option.some.injEq, forall_eq']
      cases h2 : init.2 <;> simp [and_assoc]

/-- Every error a store can yield is an `UnmarshalTypeError`. -/
theorem decodeObject_no_errorf {F S : Type} (all : List F) (tag : F → String)
    (store : F → Json → S → S × Option GoError)
    (hstore : ∀ f j s msg, (store f j s).2 ≠ some (.errorf msg)) :
    ∀ (members : List (String × Json)) (init : S × Option GoError) (msg : String),
      init.2 ≠ some (.errorf msg) →
      (decodeObject all tag store members init).2 ≠ some (.errorf msg) := by
  intro members
  induction members with
  | nil => intro init msg h; exact h
  | cons kv members ih =>
    intro init msg h
    rw [decodeObject_cons]
    apply ih
    cases hf : findField all tag kv.1 with
    | none => exact h
    | some f =>
      show (init.2 <|> (store f kv.2 init.1).2) ≠ _
      cases h2 : init.2 with
      | none => simpa using hstore f kv.2 init.1 msg
      | some e => rw [h2] at h; simpa using h

theorem storeString_no_errorf (a b old : String) (j : Json) (msg : String) :
    (storeString a b old j).2 ≠ some (.errorf msg) := by
  cases j <;> simp [storeString]

theorem storeBool_no_errorf (a b : String) (old : Bool) (j : Json) (msg : String) :
    (storeBool a b old j).2 ≠ some (.errorf msg) := by
  cases j <;> simp [storeBool]

theorem storeInt_no_errorf (a b : String) (old : Int) (j : Json) (msg : String) :
    (storeInt a b old j).2 ≠ some (.errorf msg) := by
  cases j <;> simp [storeInt]
  split <;> simp

mutual
theorem valueInterface_no_errorf (L : Lib) (a b : String) (msg : String) :
    ∀ j : Json, (valueInterface L a b j).2 ≠ some (.errorf msg)
  | .null => by simp [valueInterface]
  | .bool _ => by simp [valueInterface]
  | .str _ => by simp [valueInterface]
  | .num lit => by
    simp only [valueInterface]
    split <;> simp
  | .arr xs => by
    simp only [valueInterface]
    exact arrayInterface_no_errorf L a b msg xs
  | .obj kvs => by
    simp only [valueInterface]
    exact objectInterface_no_errorf L a b msg kvs
theorem arrayInterface_no_errorf (L : Lib) (a b : String) (msg : String) :
    ∀ xs : List Json, (arrayInterface L a b xs).2 ≠ some (.errorf msg)
  | [] => by simp [arrayInterface]
  | x :: xs => by
    simp only [arrayInterface]
    have h1 := valueInterface_no_errorf L a b msg x
    have h2 := arrayInterface_no_errorf L a b msg xs
    cases h : (valueInterface L a b x).2 with
    | none => simpa using h2
    | some e => rw [h] at h1; simpa using h1
theorem objectInterface_no_errorf (L : Lib) (a b : String) (msg : String) :
    ∀ kvs : List (String × Json), (objectInterface L a b kvs).2 ≠ some (.errorf msg)
  | [] => by simp [objectInterface]
  | (k, x) :: kvs => by
    simp only [objectInterface]
    have h1 := valueInterface_no_errorf L a b msg x
    have h2 := objectInterface_no_errorf L a b msg kvs
    cases h : (valueInterface L a b x).2 with
    | none => simpa using h2
    | some e => rw [h] at h1; simpa using h1
end

theorem storeAny_no_errorf (L : Lib) (a b : String) (old : GoAny) (j : Json) (msg : String) :
    (storeAny L a b old j).2 ≠ some (.errorf msg) := by
  cases j with
  | null => simp [storeAny]
  | num lit =>
    simp only [storeAny]
    split <;> simp
  | bool x => simpa [storeAny] using valueInterface_no_errorf L a b msg (.bool x)
  | str x => simpa [storeAny] using valueInterface_no_errorf L a b msg (.str x)
  | arr x => simpa [storeAny] using valueInterface_no_errorf L a b msg (.arr x)
  | obj x => simpa [storeAny] using valueInterface_no_errorf L a b msg (.obj x)

theorem Project_store_no_errorf (f : ProjectField) (j : Json) (p : Project) (msg : String) :
    (Project.store f j p).2 ≠ some (.errorf msg) := by
  cases f <;> simp only [Project.store] <;>
    first
      | exact storeString_no_errorf _ _ _ _ _
      | exact storeBool_no_errorf _ _ _ _ _
      | exact storeInt_no_errorf _ _ _ _ _

theorem Project_unmarshal_no_errorf (j : Json) (old : Project) (msg : String) :
    (Project.unmarshal j old).2 ≠ some (.errorf msg) := by
  cases j <;> simp [Project.unmarshal, decodeStruct]
  exact decodeObject_no_errorf _ _ _ Project_store_no_errorf _ _ _ (by simp)

theorem projectV1_store_no_errorf (L : Lib) (f : V1Field) (j : Json) (p : projectV1)
    (msg : String) : (projectV1.store L f j p).2 ≠ some (.errorf msg) := by
  cases f <;> simp only [projectV1.store] <;>
    first
      | exact storeString_no_errorf _ _ _ _ _
      | exact storeBool_no_errorf _ _ _ _ _
      | exact storeInt_no_errorf _ _ _ _ _
      | exact storeAny_no_errorf _ _ _ _ _ _

theorem projectV1_unmarshal_no_errorf (L : Lib) (j : Json) (old : projectV1) (msg : String) :
    (projectV1.unmarshal L j old).2 ≠ some (.errorf msg) := by
  cases j <;> simp [projectV1.unmarshal, decodeStruct]
  exact decodeObject_no_errorf _ _ _ (projectV1_store_no_errorf L) _ _ _ (by simp)

theorem storeString_error_old (a b old old2 : String) (j : Json) :
    (storeString a b old j).2 = (storeString a b old2 j).2 := by
  cases j <;> rfl

theorem storeBool_error_old (a b : String) (old old2 : Bool) (j : Json) :
    (storeBool a b old j).2 = (storeBool a b old2 j).2 := by
  cases j <;> rfl

theorem storeInt_error_old (a b : String) (old old2 : Int) (j : Json) :
    (storeInt a b old j).2 = (storeInt a b old2 j).2 := by
  cases j <;> simp only [storeInt]
  split <;> rfl

theorem storeAny_error_old (L : Lib) (a b : String) (old old2 : GoAny) (j : Json) :
    (storeAny L a b old j).2 = (storeAny L a b old2 j).2 := by
  cases j <;> simp only [storeAny]
  split <;> rfl

theorem projectV1_store_error (L : Lib) (f : V1Field) (j : Json) (s : projectV1) :
    (projectV1.store L f j s).2 = (projectV1.store L f j projectV1.zero).2 := by
  cases f <;> simp only [projectV1.store] <;>
    first
      | exact storeString_error_old _ _ _ _ _
      | exact storeBool_error_old _ _ _ _ _
      | exact storeInt_error_old _ _ _ _ _
      | exact storeAny_error_old _ _ _ _ _ _

/-! ## The transport wrapper -/

theorem NewClient_apiKey (apiKey : String) (transport : Request → Except String Response)
    (c : Client) (h : NewClient apiKey transport = .ok c) : c.apiKey ≠ "" := by
  unfold NewClient at h
  split at h
  · cases h
  · cases h
    assumption

theorem statusErrorText_toList (s : Int) (b : String) :
    (statusErrorText s b).toList =
      "unknown error, status code: ".toList ++ ((Itoa s).toList ++ (", response: ".toList ++ b.toList)) := by
  simp [statusErrorText, String.toList, String.data_append, List.append_assoc]

theorem statusErrorText_ne_missing (s : Int) (b : String) :
    statusErrorText s b ≠ "missing project id" := by
  intro h
  have h2 := congrArg String.toList h
  rw [statusErrorText_toList] at h2
  simp [String.toList] at h2

theorem statusErrorText_contains (s : Int) (b : String) :
    (Itoa s).toList <:+: (statusErrorText s b).toList ∧
      b.toList <:+: (statusErrorText s b).toList := by
  rw [statusErrorText_toList]
  constructor
  · exact ⟨"unknown error, status code: ".toList, ", response: ".toList ++ b.toList, by simp⟩
  · exact ⟨"unknown error, status code: ".toList ++ ((Itoa s).toList ++ ", response: ".toList), [],
      by simp⟩

theorem sendRequest_outside {α : Type} (L : Lib) (c : Client) (req : Request) (v : Option α)
    (unmarshal : Json → α → α × Option GoError) (res : Response) (body : String)
    (hkey : c.apiKey ≠ "") (hdo : c.HTTPClient (withHeaders c req) = .ok res)
    (hbody : res.Body = .ok body) (hout : res.StatusCode < 200 ∨ 400 ≤ res.StatusCode) :
    c.sendRequest L req v unmarshal =
      { statusCode := res.StatusCode, response := body,
        e := some (.errorf (statusErrorText res.StatusCode body)), v := v,
        trace := [.send (withHeaders c req)] } := by
  unfold Client.sendRequest
  rw [if_neg hkey, hdo]
  simp only [hbody]
  rw [if_pos (by simpa using hout)]

theorem sendRequest_inside_nil {α : Type} (L : Lib) (c : Client) (req : Request)
    (unmarshal : Json → α → α × Option GoError) (res : Response) (body : String)
    (hkey : c.apiKey ≠ "") (hdo : c.HTTPClient (withHeaders c req) = .ok res)
    (hbody : res.Body = .ok body) (hin : 200 ≤ res.StatusCode ∧ res.StatusCode < 400) :
    c.sendRequest L req none unmarshal =
      { statusCode := res.StatusCode, response := "", e := none, v := none,
        trace := [.send (withHeaders c req)] } := by
  unfold Client.sendRequest
  rw [if_neg hkey, hdo]
  simp only [hbody]
  rw [if_neg (by simp; omega)]

theorem sendRequest_inside_decoded {α : Type} (L : Lib) (c : Client) (req : Request) (t x : α)
    (unmarshal : Json → α → α × Option GoError) (res : Response) (body : String) (j : Json)
    (hkey : c.apiKey ≠ "") (hdo : c.HTTPClient (withHeaders c req) = .ok res)
    (hbody : res.Body = .ok body) (hin : 200 ≤ res.StatusCode ∧ res.StatusCode < 400)
    (hjson : L.jsonValue body = .ok j) (hdec : unmarshal j t = (x, none)) :
    c.sendRequest L req (some t) unmarshal =
      { statusCode := res.StatusCode, response := body, e := none, v := some x,
        trace := [.send (withHeaders c req)] } := by
  unfold Client.sendRequest
  rw [if_neg hkey, hdo]
  simp only [hbody]
  rw [if_neg (by simp; omega)]
  simp only [hjson, hdec]

/-- The only errors made by `fmt.Errorf` that `sendRequest` returns are the
missing token and the status error. -/
theorem sendRequest_errorf {α : Type} (L : Lib) (c : Client) (req : Request) (v : Option α)
    (unmarshal : Json → α → α × Option GoError)
    (hun : ∀ j t msg, (unmarshal j t).2 ≠ some (.errorf msg)) (msg : String)
    (h : (c.sendRequest L req v unmarshal).e = some (.errorf msg)) :
    (c.apiKey = "" ∧ msg = "api token missing") ∨
      ∃ res body, c.HTTPClient (withHeaders c req) = .ok res ∧ res.Body = .ok body ∧
        (res.StatusCode < 200 ∨ 400 ≤ res.StatusCode) ∧ msg = statusErrorText res.StatusCode body := by
  unfold Client.sendRequest at h
  by_cases hkey : c.apiKey = ""
  · left
    rw [if_pos hkey] at h
    simp at h
    exact ⟨hkey, h.symm⟩
  · right
    rw [if_neg hkey] at h
    cases hdo : c.HTTPClient (withHeaders c req) with
    | error m => rw [hdo] at h; simp at h
    | ok res =>
      rw [hdo] at h
      simp only at h
      cases hbody : res.Body with
      | error m => rw [hbody] at h; simp at h
      | ok body =>
        rw [hbody] at h
        simp only at h
        by_cases hst : res.StatusCode < 200 ∨ res.StatusCode ≥ 400
        · rw [if_pos hst] at h
          simp at h
          exact ⟨res, body, rfl, hbody, by simpa using hst, h.symm⟩
        · rw [if_neg hst] at h
          exfalso
          cases v with
          | none => simp at h
          | some t =>
            simp only at h
            cases hj : L.jsonValue body with
            | error m => rw [hj] at h; simp at h
            | ok j =>
              rw [hj] at h
              simp only at h
              cases hu : (unmarshal j t).2 with
              | none => rw [hu] at h; simp at h
              | some err =>
                rw [hu] at h
                simp only at h
                have := hun j t msg
                rw [hu] at this
                exact this h

/-! ## The claims -/

/-- C1 fails on the code: on the wire response of the scenario `CreateProject`
and `UpdateProject` return a decode error where `GetProject` returns the
adapted project, and on a wire response with a colour name they return a
project whose Order and IsInboxProject are not those of the wire object. -/
theorem CreateProject_not_adapted :
    ((exampleClient 200 wireBody).CreateProject exampleLib
        { Name := some "X", ParentID := none, Color := none, IsFavorite := none,
          ViewStyle := none }).1 = .error (.unmarshalType "number" "string" "Project" "color") ∧
    ((exampleClient 200 wireBody).UpdateProject exampleLib
        { ID := some "1", Name := some "X", Color := none, IsFavorite := none,
          ViewStyle := none }).1 = .error (.unmarshalType "number" "string" "Project" "color") ∧
    ((exampleClient 200 wireBody).GetProject exampleLib "1").1 =
      .ok { ID := "1", Name := "X", CommentCount := 0, Color := "mint_green", IsShared := false,
            Order := 0, IsFavorite := false, IsInboxProject := false, IsTeamInbox := false,
            ViewStyle := "", URL := "", ParentID := "" } ∧
    ((exampleClient 200 namedBody).CreateProject exampleLib
        { Name := some "Y", ParentID := none, Color := none, IsFavorite := none,
          ViewStyle := none }).1 =
      .ok { ID := "2", Name := "Y", CommentCount := 0, Color := "red", IsShared := false,
            Order := 0, IsFavorite := false, IsInboxProject := false, IsTeamInbox := false,
            ViewStyle := "", URL := "", ParentID := "" } ∧
    ((exampleClient 200 namedBody).GetProject exampleLib "2").1 =
      .ok { ID := "2", Name := "Y", CommentCount := 0, Color := "red", IsShared := false,
            Order := 5, IsFavorite := false, IsInboxProject := true, IsTeamInbox := false,
            ViewStyle := "", URL := "", ParentID := "" } :=
  ⟨rfl, rfl, rfl, rfl, rfl⟩

/-- C2 fails on the code: the body marshalled for an update with identifier
"123" carries the identifier under the key "ID", and that body is the one sent. -/
theorem UpdateProject_body_has_id :
    exampleUpdate.Marshal = .obj [("ID", .str "123"), ("name", .str "new name")] ∧
      ¬ (exampleUpdate.Marshal.keys ⊆ ["name", "color", "is_favorite", "view_style"]) ∧
      ((exampleClient 200 wireBody).UpdateProject exampleLib exampleUpdate).2 =
        [ .newRequest "POST" "https://api.todoist.com/api/v1/projects/123"
            (some (.obj [("ID", .str "123"), ("name", .str "new name")])),
          .send
            { Method := "POST", URL := "https://api.todoist.com/api/v1/projects/123",
              Body := some (.obj [("ID", .str "123"), ("name", .str "new name")]),
              Header :=
                [("Content-Type", "application/json; charset=utf-8"),
                 ("Accept", "application/json; charset=utf-8"),
                 ("Authorization", "Bearer token")] } ] := by
  refine ⟨rfl, by decide, rfl⟩

/-- C3 as stated fails: the create payload with no field set is marshalled with
the key "name", sent as null. -/
theorem CreateProject_unset_name_sent :
    emptyCreate.Name = none ∧ "name" ∈ emptyCreate.Marshal.keys ∧
      emptyCreate.Marshal = .obj [("name", .null)] :=
  ⟨rfl, by decide, rfl⟩

/-- C3, amended: the body of a create always has the key "name" (null when
Name is unset) and has each of parent_id, color, is_favorite, view_style exactly
when that field is set, with the value set; the body of an update has each of
name, color, is_favorite, view_style exactly when that field is set, with the
value set. -/
theorem Marshal_optional_fields (p : CreateProject) (u : UpdateProject) :
    (p.Marshal.get? "name" = some ((p.Name.map Json.str).getD .null) ∧
      (("parent_id" ∈ p.Marshal.keys ↔ p.ParentID ≠ none) ∧
        p.Marshal.get? "parent_id" = p.ParentID.map Json.str) ∧
      (("color" ∈ p.Marshal.keys ↔ p.Color ≠ none) ∧
        p.Marshal.get? "color" = p.Color.map Json.str) ∧
      (("is_favorite" ∈ p.Marshal.keys ↔ p.IsFavorite ≠ none) ∧
        p.Marshal.get? "is_favorite" = p.IsFavorite.map Json.bool) ∧
      (("view_style" ∈ p.Marshal.keys ↔ p.ViewStyle ≠ none) ∧
        p.Marshal.get? "view_style" = p.ViewStyle.map Json.str) ∧
      p.Marshal.keys ⊆ ["name", "parent_id", "color", "is_favorite", "view_style"]) ∧
    ((("name" ∈ u.Marshal.keys ↔ u.Name ≠ none) ∧
        u.Marshal.get? "name" = u.Name.map Json.str) ∧
      (("color" ∈ u.Marshal.keys ↔ u.Color ≠ none) ∧
        u.Marshal.get? "color" = u.Color.map Json.str) ∧
      (("is_favorite" ∈ u.Marshal.keys ↔ u.IsFavorite ≠ none) ∧
        u.Marshal.get? "is_favorite" = u.IsFavorite.map Json.bool) ∧
      (("view_style" ∈ u.Marshal.keys ↔ u.ViewStyle ≠ none) ∧
        u.Marshal.get? "view_style" = u.ViewStyle.map Json.str)) := by
  constructor
  · rcases p with ⟨_ | n, _ | pid, _ | col, _ | fav, _ | vs⟩ <;>
      simp [CreateProject.Marshal, always, omitempty, Json.keys, Json.get?, List.lookup]
  · rcases u with ⟨_ | i, _ | n, _ | col, _ | fav, _ | vs⟩ <;>
      simp [UpdateProject.Marshal, always, omitempty, Json.keys, Json.get?, List.lookup]

/-- C4 as stated fails: on a 200 response with body "B" `DeleteProject` returns
the empty string, not the body. -/
theorem DeleteProject_body_dropped :
    ((exampleClient 200 "B").DeleteProject exampleLib "1").1 = (200, "", none) ∧
      ((exampleClient 200 "B").DeleteProject exampleLib "1").1 ≠ (200, "B", none) := by
  constructor
  · rfl
  · intro h
    have h2 : ((exampleClient 200 "B").DeleteProject exampleLib "1").1.2.1 = "B" := by rw [h]
    exact absurd h2 (by decide)

/-- C4, amended: with a token configured and a URL that parses, a response to
DELETE /projects/id with a status in [200, 400) makes `DeleteProject` return
that status, the empty string and a nil error. -/
theorem DeleteProject_success (L : Lib) (c : Client) (projectId : String) (res : Response)
    (body : String) (hkey : c.apiKey ≠ "")
    (hurl : L.parseURL (c.BaseURL ++ "/projects/" ++ projectId) = none)
    (hdo : c.HTTPClient (withHeaders c
      { Method := "DELETE", URL := c.BaseURL ++ "/projects/" ++ projectId, Body := none,
        Header := [] }) = .ok res)
    (hbody : res.Body = .ok body) (hin : 200 ≤ res.StatusCode ∧ res.StatusCode < 400) :
    (c.DeleteProject L projectId).1 = (res.StatusCode, "", none) := by
  simp only [Client.DeleteProject, NewRequest, hurl]
  rw [sendRequest_inside_nil L c _ _ res body hkey hdo hbody hin]

theorem DeleteProject_success_witness :
    ((exampleClient 204 "").DeleteProject exampleLib "1").1 = (204, "", none) ∧
      ((exampleClient 200 "B").DeleteProject exampleLib "2").1 = (200, "", none) :=
  ⟨DeleteProject_success exampleLib (exampleClient 204 "") "1" { StatusCode := 204, Body := .ok "" }
      "" (by decide) rfl rfl rfl (by decide),
   DeleteProject_success exampleLib (exampleClient 200 "B") "2" { StatusCode := 200, Body := .ok "B" }
      "B" (by decide) rfl rfl rfl (by decide)⟩

/-- C5: with a token configured, a response whose status lies outside
[200, 400) makes `sendRequest` return the status, the raw body and an error
whose text contains the decimal status and the body; `GetProject` then returns
no project and that error; a status inside [200, 400) never gives an error made
by `fmt.Errorf`, the status error included. -/
theorem sendRequest_status_error (L : Lib) (c : Client) (hkey : c.apiKey ≠ "") :
    (∀ (α : Type) (req : Request) (v : Option α) (unmarshal : Json → α → α × Option GoError)
        (res : Response) (body : String),
        c.HTTPClient (withHeaders c req) = .ok res → res.Body = .ok body →
        (res.StatusCode < 200 ∨ 400 ≤ res.StatusCode) →
        ∃ err, (c.sendRequest L req v unmarshal).statusCode = res.StatusCode ∧
          (c.sendRequest L req v unmarshal).response = body ∧
          (c.sendRequest L req v unmarshal).e = some err ∧
          (Itoa res.StatusCode).toList <:+: err.Error.toList ∧
          body.toList <:+: err.Error.toList) ∧
    (∀ (projectId : String) (res : Response) (body : String),
        L.parseURL (c.BaseURL ++ "/projects/" ++ projectId) = none →
        c.HTTPClient (withHeaders c
          { Method := "GET", URL := c.BaseURL ++ "/projects/" ++ projectId, Body := none,
            Header := [] }) = .ok res →
        res.Body = .ok body →
        (res.StatusCode < 200 ∨ 400 ≤ res.StatusCode) →
        ∃ err, (c.GetProject L projectId).1 = .error err ∧
          (Itoa res.StatusCode).toList <:+: err.Error.toList ∧
          body.toList <:+: err.Error.toList) ∧
    (∀ (α : Type) (req : Request) (v : Option α) (unmarshal : Json → α → α × Option GoError)
        (res : Response),
        (∀ j t msg, (unmarshal j t).2 ≠ some (.errorf msg)) →
        c.HTTPClient (withHeaders c req) = .ok res →
        (200 ≤ res.StatusCode ∧ res.StatusCode < 400) →
        ∀ msg, (c.sendRequest L req v unmarshal).e ≠ some (.errorf msg)) := by
  refine ⟨?_, ?_, ?_⟩
  · intro α req v unmarshal res body hdo hbody hout
    rw [sendRequest_outside L c req v unmarshal res body hkey hdo hbody hout]
    exact ⟨_, rfl, rfl, rfl, statusErrorText_contains _ _⟩
  · intro projectId res body hurl hdo hbody hout
    refine ⟨.errorf (statusErrorText res.StatusCode body), ?_, statusErrorText_contains _ _⟩
    simp only [Client.GetProject, NewRequest, hurl]
    rw [sendRequest_outside L c _ _ _ res body hkey hdo hbody hout]
  · intro α req v unmarshal res hun hdo hin msg h
    rcases sendRequest_errorf L c req v unmarshal hun msg h with ⟨h1, _⟩ | ⟨res2, body, h1, _, h3, _⟩
    · exact hkey h1
    · rw [hdo] at h1
      cases h1
      omega

theorem sendRequest_status_error_witness :
    (∃ err, ((exampleClient 404 "\x7b\"error\":\"not found\"\x7d").GetProject exampleLib "1").1
          = .error err ∧
        (Itoa 404).toList <:+: err.Error.toList ∧
        "\x7b\"error\":\"not found\"\x7d".toList <:+: err.Error.toList) ∧
      ((exampleClient 200 wireBody).sendRequest exampleLib
          { Method := "POST", URL := "u", Body := none, Header := [] } (some Project.zero)
          Project.unmarshal).e ≠ some (.errorf (statusErrorText 200 wireBody)) :=
  ⟨(sendRequest_status_error exampleLib (exampleClient 404 "\x7b\"error\":\"not found\"\x7d")
      (by decide)).2.1 "1" { StatusCode := 404, Body := .ok "\x7b\"error\":\"not found\"\x7d" }
      "\x7b\"error\":\"not found\"\x7d" rfl rfl rfl (by decide),
   (sendRequest_status_error exampleLib (exampleClient 200 wireBody) (by decide)).2.2 Project _
      (some Project.zero) Project.unmarshal { StatusCode := 200, Body := .ok wireBody }
      Project_unmarshal_no_errorf rfl (by decide) (statusErrorText 200 wireBody)⟩

/-- C6: `UpdateProject` with the identifier unset returns no project and the
error "missing project id" without calling `http.NewRequest` or
`HTTPClient.Do`; with the identifier set it never returns that error. -/
theorem UpdateProject_requires_id (L : Lib) (c : Client) (u : UpdateProject) :
    (u.ID = none → c.UpdateProject L u = (.error (.errorf "missing project id"), [])) ∧
    (u.ID ≠ none → (c.UpdateProject L u).1 ≠ .error (.errorf "missing project id")) := by
  constructor
  · intro h
    simp only [Client.UpdateProject, h]
  · intro h
    cases hid : u.ID with
    | none => exact absurd hid h
    | some id =>
      simp only [Client.UpdateProject, hid]
      cases hreq : NewRequest L "POST" (c.BaseURL ++ "/projects/" ++ id) (some u.Marshal) with
      | error err =>
        simp only [NewRequest] at hreq
        split at hreq
        · cases hreq; simp
        · cases hreq
      | ok req =>
        simp only
        cases he : (c.sendRequest L req (some Project.zero) Project.unmarshal).e with
        | none => simp
        | some err =>
          simp only
          intro habs
          cases habs
          rcases sendRequest_errorf L c req _ _ Project_unmarshal_no_errorf _ he with
            ⟨_, h2⟩ | ⟨res, body, _, _, _, h4⟩
          · exact absurd h2 (by decide)
          · exact statusErrorText_ne_missing _ _ h4.symm

theorem UpdateProject_requires_id_witness :
    (exampleClient 200 wireBody).UpdateProject exampleLib
        { ID := none, Name := some "new name", Color := none, IsFavorite := none,
          ViewStyle := none } = (.error (.errorf "missing project id"), []) ∧
      ((exampleClient 200 wireBody).UpdateProject exampleLib
        { ID := some "1", Name := some "new name", Color := none, IsFavorite := none,
          ViewStyle := none }).1 ≠ .error (.errorf "missing project id") :=
  ⟨(UpdateProject_requires_id exampleLib (exampleClient 200 wireBody) _).1 rfl,
   (UpdateProject_requires_id exampleLib (exampleClient 200 wireBody) _).2 (by simp)⟩

/-- C7: a wire object that `GetProject` decodes without error is returned with
Order = child_order, IsInboxProject = inbox_project, Color = colorToString of
the wire colour and the other fields copied; a field that no member of the JSON
object selects is the zero value in the result, and a decode error can only
come from a member that is present; the value of the last member that selects a
field (a string, a boolean, an integer literal, any colour value) is the value
of that field in the returned Project. -/
theorem GetProject_adapts (L : Lib) (c : Client) (projectId : String) (res : Response)
    (body : String) (j : Json) (v1 : projectV1) (hkey : c.apiKey ≠ "")
    (hurl : L.parseURL (c.BaseURL ++ "/projects/" ++ projectId) = none)
    (hdo : c.HTTPClient (withHeaders c
      { Method := "GET", URL := c.BaseURL ++ "/projects/" ++ projectId, Body := none,
        Header := [] }) = .ok res)
    (hbody : res.Body = .ok body) (hin : 200 ≤ res.StatusCode ∧ res.StatusCode < 400)
    (hjson : L.jsonValue body = .ok j)
    (hdec : projectV1.unmarshal L j projectV1.zero = (v1, none)) :
    (c.GetProject L projectId).1 =
        .ok { ID := v1.ID, Name := v1.Name, CommentCount := 0,
              Color := colorToString L v1.Color, IsShared := v1.IsShared,
              Order := v1.ChildOrder, IsFavorite := v1.IsFavorite,
              IsInboxProject := v1.InboxProject, IsTeamInbox := v1.IsTeamInbox,
              ViewStyle := v1.ViewStyle, URL := v1.URL, ParentID := v1.ParentID } ∧
    (∀ members : List (String × Json), j = .obj members →
      ((∀ kv ∈ members, findField V1Field.all V1Field.tag kv.1 ≠ some .ID) → v1.ID = "") ∧
      ((∀ kv ∈ members, findField V1Field.all V1Field.tag kv.1 ≠ some .Name) → v1.Name = "") ∧
      ((∀ kv ∈ members, findField V1Field.all V1Field.tag kv.1 ≠ some .Color) →
        colorToString L v1.Color = "") ∧
      ((∀ kv ∈ members, findField V1Field.all V1Field.tag kv.1 ≠ some .IsShared) →
        v1.IsShared = false) ∧
      ((∀ kv ∈ members, findField V1Field.all V1Field.tag kv.1 ≠ some .ChildOrder) →
        v1.ChildOrder = 0) ∧
      ((∀ kv ∈ members, findField V1Field.all V1Field.tag kv.1 ≠ some .IsFavorite) →
        v1.IsFavorite = false) ∧
      ((∀ kv ∈ members, findField V1Field.all V1Field.tag kv.1 ≠ some .InboxProject) →
        v1.InboxProject = false) ∧
      ((∀ kv ∈ members, findField V1Field.all V1Field.tag kv.1 ≠ some .IsTeamInbox) →
        v1.IsTeamInbox = false) ∧
      ((∀ kv ∈ members, findField V1Field.all V1Field.tag kv.1 ≠ some .ViewStyle) →
        v1.ViewStyle = "") ∧
      ((∀ kv ∈ members, findField V1Field.all V1Field.tag kv.1 ≠ some .URL) → v1.URL = "") ∧
      ((∀ kv ∈ members, findField V1Field.all V1Field.tag kv.1 ≠ some .ParentID) →
        v1.ParentID = "")) ∧
    (∀ members : List (String × Json),
      (projectV1.unmarshal L (.obj members) projectV1.zero).2 = none ↔
        ∀ kv ∈ members, ∀ f, findField V1Field.all V1Field.tag kv.1 = some f →
          (projectV1.store L f kv.2 projectV1.zero).2 = none) ∧
    (∀ (pre post : List (String × Json)) (k : String) (val : Json) (p : Project),
      j = .obj (pre ++ (k, val) :: post) → (c.GetProject L projectId).1 = .ok p →
      ((findField V1Field.all V1Field.tag k = some .ID →
          (∀ kv ∈ post, findField V1Field.all V1Field.tag kv.1 ≠ some .ID) →
          ∀ s, val = .str s → p.ID = s) ∧
       (findField V1Field.all V1Field.tag k = some .Name →
          (∀ kv ∈ post, findField V1Field.all V1Field.tag kv.1 ≠ some .Name) →
          ∀ s, val = .str s → p.Name = s) ∧
       (findField V1Field.all V1Field.tag k = some .Color →
          (∀ kv ∈ post, findField V1Field.all V1Field.tag kv.1 ≠ some .Color) →
          (∀ s, val = .str s → p.Color = s) ∧
          (∀ lit x, val = .num lit → L.parseFloat lit = some x →
            p.Color = colorToString L (.float64 x)) ∧
          (val = .null → p.Color = "") ∧
          (∀ b, val = .bool b → p.Color = L.sprintV (.bool b)) ∧
          (∀ xs, val = .arr xs →
            p.Color = L.sprintV (.slice (arrayInterface L "projectV1" "color" xs).1)) ∧
          (∀ kvs, val = .obj kvs →
            p.Color = L.sprintV (.map (objectInterface L "projectV1" "color" kvs).1))) ∧
       (findField V1Field.all V1Field.tag k = some .IsShared →
          (∀ kv ∈ post, findField V1Field.all V1Field.tag kv.1 ≠ some .IsShared) →
          ∀ b, val = .bool b → p.IsShared = b) ∧
       (findField V1Field.all V1Field.tag k = some .ChildOrder →
          (∀ kv ∈ post, findField V1Field.all V1Field.tag kv.1 ≠ some .ChildOrder) →
          ∀ lit n, val = .num lit → parseInt64 lit = some n → p.Order = n) ∧
       (findField V1Field.all V1Field.tag k = some .IsFavorite →
          (∀ kv ∈ post, findField V1Field.all V1Field.tag kv.1 ≠ some .IsFavorite) →
          ∀ b, val = .bool b → p.IsFavorite = b) ∧
       (findField V1Field.all V1Field.tag k = some .InboxProject →
          (∀ kv ∈ post, findField V1Field.all V1Field.tag kv.1 ≠ some .InboxProject) →
          ∀ b, val = .bool b → p.IsInboxProject = b) ∧
       (findField V1Field.all V1Field.tag k = some .IsTeamInbox →
          (∀ kv ∈ post, findField V1Field.all V1Field.tag kv.1 ≠ some .IsTeamInbox) →
          ∀ b, val = .bool b → p.IsTeamInbox = b) ∧
       (findField V1Field.all V1Field.tag k = some .ViewStyle →
          (∀ kv ∈ post, findField V1Field.all V1Field.tag kv.1 ≠ some .ViewStyle) →
          ∀ s, val = .str s → p.ViewStyle = s) ∧
       (findField V1Field.all V1Field.tag k = some .URL →
          (∀ kv ∈ post, findField V1Field.all V1Field.tag kv.1 ≠ some .URL) →
          ∀ s, val = .str s → p.URL = s) ∧
       (findField V1Field.all V1Field.tag k = some .ParentID →
          (∀ kv ∈ post, findField V1Field.all V1Field.tag kv.1 ≠ some .ParentID) →
          ∀ s, val = .str s → p.ParentID = s) ∧
       p.CommentCount = 0)) := by
  have hres : (c.GetProject L projectId).1 =
      .ok { ID := v1.ID, Name := v1.Name, CommentCount := 0,
            Color := colorToString L v1.Color, IsShared := v1.IsShared,
            Order := v1.ChildOrder, IsFavorite := v1.IsFavorite,
            IsInboxProject := v1.InboxProject, IsTeamInbox := v1.IsTeamInbox,
            ViewStyle := v1.ViewStyle, URL := v1.URL, ParentID := v1.ParentID } := by
    simp only [Client.GetProject, NewRequest, hurl]
    rw [sendRequest_inside_decoded L c _ _ v1 _ res body _ hkey hdo hbody hin hjson hdec]
    rfl
  refine ⟨hres, ?_, ?_, ?_⟩
  · intro members hj
    subst hj
    have hv : v1 = (decodeObject V1Field.all V1Field.tag (projectV1.store L) members
        (projectV1.zero, none)).1 := by
      have := congrArg Prod.fst hdec
      simpa [projectV1.unmarshal, decodeStruct] using this.symm
    refine ⟨?_, ?_, ?_, ?_, ?_, ?_, ?_, ?_, ?_, ?_, ?_⟩ <;> intro habs <;> rw [hv]
    · exact decodeObject_untouched _ _ _ projectV1.ID .ID
        (by intro f j s hf; cases f <;> first | exact absurd rfl hf | rfl) members _ habs
    · exact decodeObject_untouched _ _ _ projectV1.Name .Name
        (by intro f j s hf; cases f <;> first | exact absurd rfl hf | rfl) members _ habs
    · have := decodeObject_untouched _ _ (projectV1.store L) projectV1.Color .Color
        (by intro f j s hf; cases f <;> first | exact absurd rfl hf | rfl) members
        (projectV1.zero, none) habs
      rw [this]
      rfl
    · exact decodeObject_untouched _ _ _ projectV1.IsShared .IsShared
        (by intro f j s hf; cases f <;> first | exact absurd rfl hf | rfl) members _ habs
    · exact decodeObject_untouched _ _ _ projectV1.ChildOrder .ChildOrder
        (by intro f j s hf; cases f <;> first | exact absurd rfl hf | rfl) members _ habs
    · exact decodeObject_untouched _ _ _ projectV1.IsFavorite .IsFavorite
        (by intro f j s hf; cases f <;> first | exact absurd rfl hf | rfl) members _ habs
    · exact decodeObject_untouched _ _ _ projectV1.InboxProject .InboxProject
        (by intro f j s hf; cases f <;> first | exact absurd rfl hf | rfl) members _ habs
    · exact decodeObject_untouched _ _ _ projectV1.IsTeamInbox .IsTeamInbox
        (by intro f j s hf; cases f <;> first | exact absurd rfl hf | rfl) members _ habs
    · exact decodeObject_untouched _ _ _ projectV1.ViewStyle .ViewStyle
        (by intro f j s hf; cases f <;> first | exact absurd rfl hf | rfl) members _ habs
    · exact decodeObject_untouched _ _ _ projectV1.URL .URL
        (by intro f j s hf; cases f <;> first | exact absurd rfl hf | rfl) members _ habs
    · exact decodeObject_untouched _ _ _ projectV1.ParentID .ParentID
        (by intro f j s hf; cases f <;> first | exact absurd rfl hf | rfl) members _ habs
  · intro members
    have h := decodeObject_error V1Field.all V1Field.tag (projectV1.store L)
      (fun f j => (projectV1.store L f j projectV1.zero).2)
      (fun f j s => projectV1_store_error L f j s) members (projectV1.zero, none)
    simpa [projectV1.unmarshal, decodeStruct] using h
  · intro pre post k val p hj hp
    subst hj
    rw [hres] at hp
    cases hp
    have hv : v1 = (decodeObject V1Field.all V1Field.tag (projectV1.store L)
        (pre ++ (k, val) :: post) (projectV1.zero, none)).1 := by
      have := congrArg Prod.fst hdec
      simpa [projectV1.unmarshal, decodeStruct] using this.symm
    refine ⟨?_, ?_, ?_, ?_, ?_, ?_, ?_, ?_, ?_, ?_, ?_, rfl⟩
    · intro hk hpost s hval
      subst hval
      show v1.ID = s
      rw [hv, decodeObject_last _ _ _ projectV1.ID .ID
        (by intro f j s hf; cases f <;> first | exact absurd rfl hf | rfl) pre post k _ hk hpost]
      rfl
    · intro hk hpost s hval
      subst hval
      show v1.Name = s
      rw [hv, decodeObject_last _ _ _ projectV1.Name .Name
        (by intro f j s hf; cases f <;> first | exact absurd rfl hf | rfl) pre post k _ hk hpost]
      rfl
    · intro hk hpost
      have hc : v1.Color = (projectV1.store L .Color val
          (decodeObject V1Field.all V1Field.tag (projectV1.store L) pre
            (projectV1.zero, none)).1).1.Color := by
        rw [hv, decodeObject_last _ _ _ projectV1.Color .Color
          (by intro f j s hf; cases f <;> first | exact absurd rfl hf | rfl) pre post k _ hk hpost]
      refine ⟨?_, ?_, ?_, ?_, ?_, ?_⟩
      · intro s hval
        subst hval
        show colorToString L v1.Color = s
        rw [hc]
        rfl
      · intro lit x hval hx
        subst hval
        show colorToString L v1.Color = _
        rw [hc]
        simp only [projectV1.store, storeAny, hx]
      · intro hval
        subst hval
        show colorToString L v1.Color = _
        rw [hc]
        rfl
      · intro b hval
        subst hval
        show colorToString L v1.Color = _
        rw [hc]
        rfl
      · intro xs hval
        subst hval
        show colorToString L v1.Color = _
        rw [hc]
        simp only [projectV1.store, storeAny, valueInterface, colorToString]
      · intro kvs hval
        subst hval
        show colorToString L v1.Color = _
        rw [hc]
        simp only [projectV1.store, storeAny, valueInterface, colorToString]
    · intro hk hpost b hval
      subst hval
      show v1.IsShared = b
      rw [hv, decodeObject_last _ _ _ projectV1.IsShared .IsShared
        (by intro f j s hf; cases f <;> first | exact absurd rfl hf | rfl) pre post k _ hk hpost]
      rfl
    · intro hk hpost lit n hval hn
      subst hval
      show v1.ChildOrder = n
      rw [hv, decodeObject_last _ _ _ projectV1.ChildOrder .ChildOrder
        (by intro f j s hf; cases f <;> first | exact absurd rfl hf | rfl) pre post k _ hk hpost]
      simp only [projectV1.store, storeInt, hn]
    · intro hk hpost b hval
      subst hval
      show v1.IsFavorite = b
      rw [hv, decodeObject_last _ _ _ projectV1.IsFavorite .IsFavorite
        (by intro f j s hf; cases f <;> first | exact absurd rfl hf | rfl) pre post k _ hk hpost]
      rfl
    · intro hk hpost b hval
      subst hval
      show v1.InboxProject = b
      rw [hv, decodeObject_last _ _ _ projectV1.InboxProject .InboxProject
        (by intro f j s hf; cases f <;> first | exact absurd rfl hf | rfl) pre post k _ hk hpost]
      rfl
    · intro hk hpost b hval
      subst hval
      show v1.IsTeamInbox = b
      rw [hv, decodeObject_last _ _ _ projectV1.IsTeamInbox .IsTeamInbox
        (by intro f j s hf; cases f <;> first | exact absurd rfl hf | rfl) pre post k _ hk hpost]
      rfl
    · intro hk hpost s hval
      subst hval
      show v1.ViewStyle = s
      rw [hv, decodeObject_last _ _ _ projectV1.ViewStyle .ViewStyle
        (by intro f j s hf; cases f <;> first | exact absurd rfl hf | rfl) pre post k _ hk hpost]
      rfl
    · intro hk hpost s hval
      subst hval
      show v1.URL = s
      rw [hv, decodeObject_last _ _ _ projectV1.URL .URL
        (by intro f j s hf; cases f <;> first | exact absurd rfl hf | rfl) pre post k _ hk hpost]
      rfl
    · intro hk hpost s hval
      subst hval
      show v1.ParentID = s
      rw [hv, decodeObject_last _ _ _ projectV1.ParentID .ParentID
        (by intro f j s hf; cases f <;> first | exact absurd rfl hf | rfl) pre post k _ hk hpost]
      rfl

theorem GetProject_adapts_witness :
    ((exampleClient 200 namedBody).GetProject exampleLib "2").1 =
        .ok { ID := "2", Name := "Y", CommentCount := 0, Color := "red", IsShared := false,
              Order := 5, IsFavorite := false, IsInboxProject := true, IsTeamInbox := false,
              ViewStyle := "", URL := "", ParentID := "" } ∧
      ((exampleClient 200 "\x7b\x7d").GetProject exampleLib "3").1 =
        .ok { ID := "", Name := "", CommentCount := 0, Color := "", IsShared := false,
              Order := 0, IsFavorite := false, IsInboxProject := false, IsTeamInbox := false,
              ViewStyle := "", URL := "", ParentID := "" } :=
  ⟨(GetProject_adapts exampleLib (exampleClient 200 namedBody) "2"
      { StatusCode := 200, Body := .ok namedBody } namedBody namedJson
      { ID := "2", Name := "Y", Color := .str "red", IsShared := false, ChildOrder := 5,
        IsFavorite := false, InboxProject := true, IsTeamInbox := false, ViewStyle := "",
        URL := "", ParentID := "" }
      (by decide) rfl rfl rfl (by decide) rfl rfl).1,
   (GetProject_adapts exampleLib (exampleClient 200 "\x7b\x7d") "3"
      { StatusCode := 200, Body := .ok "\x7b\x7d" } "\x7b\x7d" (.obj []) projectV1.zero
      (by decide) rfl rfl rfl (by decide) rfl rfl).1⟩

/-- C8: each colour id from 30 to 49 resolves to the fixed name of the table,
and the table has exactly these twenty keys. -/
theorem colorToString_known_ids (L : Lib) :
    colorToString L (.float64 (.finite 30)) = "berry_red" ∧
    colorToString L (.float64 (.finite 31)) = "red" ∧
    colorToString L (.float64 (.finite 32)) = "orange" ∧
    colorToString L (.float64 (.finite 33)) = "yellow" ∧
    colorToString L (.float64 (.finite 34)) = "olive_green" ∧
    colorToString L (.float64 (.finite 35)) = "lime_green" ∧
    colorToString L (.float64 (.finite 36)) = "green" ∧
    colorToString L (.float64 (.finite 37)) = "mint_green" ∧
    colorToString L (.float64 (.finite 38)) = "teal" ∧
    colorToString L (.float64 (.finite 39)) = "sky_blue" ∧
    colorToString L (.float64 (.finite 40)) = "light_blue" ∧
    colorToString L (.float64 (.finite 41)) = "blue" ∧
    colorToString L (.float64 (.finite 42)) = "grape" ∧
    colorToString L (.float64 (.finite 43)) = "violet" ∧
    colorToString L (.float64 (.finite 44)) = "lavender" ∧
    colorToString L (.float64 (.finite 45)) = "magenta" ∧
    colorToString L (.float64 (.finite 46)) = "salmon" ∧
    colorToString L (.float64 (.finite 47)) = "charcoal" ∧
    colorToString L (.float64 (.finite 48)) = "grey" ∧
    colorToString L (.float64 (.finite 49)) = "taupe" ∧
    todoistColorIDToName.map Prod.fst =
      [30, 31, 32, 33, 34, 35, 36, 37, 38, 39, 40, 41, 42, 43, 44, 45, 46, 47, 48, 49] ∧
    todoistColorIDToName.length = 20 := by
  refine ⟨rfl, rfl, rfl, rfl, rfl, rfl, rfl, rfl, rfl, rfl, rfl, rfl, rfl, rfl, rfl, rfl, rfl,
    rfl, rfl, rfl, rfl, rfl⟩

/-- C9 as stated fails: the integer 2^63 (and 10^19) is a numeric colour id
outside 30..49, and `colorToString` does not return its decimal string. -/
theorem colorToString_beyond_int :
    colorToString exampleLib (.float64 (.finite 9223372036854775808)) = "-9223372036854775808" ∧
      Itoa 9223372036854775808 = "9223372036854775808" ∧
      colorToString exampleLib (.float64 (.finite 9223372036854775808)) ≠
        Itoa 9223372036854775808 ∧
      colorToString exampleLib (.float64 (.finite 10000000000000000000)) ≠
        Itoa 10000000000000000000 := by
  refine ⟨rfl, rfl, ?_, ?_⟩
  · show "-9223372036854775808" ≠ "9223372036854775808"
    decide
  · show "-9223372036854775808" ≠ "10000000000000000000"
    decide

/-- C9, amended: for every number `c` whose conversion `int(c)` lies outside
30..49, `colorToString` returns the decimal string of `int(c)`, which is none of
the twenty names; `int(c)` is always a 64 bit integer, and for an integer id in
that range it is the id itself, so such an id outside 30..49 gives its own
decimal string. -/
theorem colorToString_unknown_id (L : Lib) (c : Float64)
    (hout : float64ToInt L c < 30 ∨ 49 < float64ToInt L c) :
    colorToString L (.float64 c) = Itoa (float64ToInt L c) ∧
      colorToString L (.float64 c) ∉ todoistColorIDToName.map Prod.snd ∧
      (-(2 ^ 63) ≤ float64ToInt L c ∧ float64ToInt L c < 2 ^ 63) ∧
      (∀ n : Int, -(2 ^ 63) ≤ n → n < 2 ^ 63 → (n < 30 ∨ 49 < n) →
        colorToString L (.float64 (.finite (n : ℚ))) = Itoa n) := by
  have heq : ∀ c2 : Float64, (float64ToInt L c2 < 30 ∨ 49 < float64ToInt L c2) →
      colorToString L (.float64 c2) = Itoa (float64ToInt L c2) := by
    intro c2 h
    simp only [colorToString, lookup_outside _ h]
  refine ⟨heq c hout, ?_, float64ToInt_range L c, ?_⟩
  · rw [heq c hout]
    exact Itoa_not_name _
  · intro n h1 h2 h3
    have hn := float64ToInt_intCast L n ⟨h1, h2⟩
    have := heq (.finite (n : ℚ)) (by rw [hn]; exact h3)
    rw [this, hn]

theorem colorToString_unknown_id_witness :
    (colorToString exampleLib (.float64 (.finite 0)) = "0" ∧
    colorToString exampleLib (.float64 (.finite 29)) = "29" ∧
    colorToString exampleLib (.float64 (.finite 50)) = "50" ∧
    colorToString exampleLib (.float64 (.finite (-1))) = "-1" ∧
    colorToString exampleLib (.float64 (.finite 9223372036854775808)) = "-9223372036854775808") ∧
    colorToString exampleLib (.float64 (.finite 50)) ∉ todoistColorIDToName.map Prod.snd :=
  ⟨⟨(colorToString_unknown_id exampleLib (.finite 0) (by decide)).1,
   (colorToString_unknown_id exampleLib (.finite 29) (by decide)).1,
   (colorToString_unknown_id exampleLib (.finite 50) (by decide)).1,
   (colorToString_unknown_id exampleLib (.finite (-1)) (by decide)).1,
   (colorToString_unknown_id exampleLib (.finite 9223372036854775808) (by decide)).1⟩,
   (colorToString_unknown_id exampleLib (.finite 50) (by decide)).2.1⟩

/-- C10: `colorToString` of an absent (nil) colour is the empty string, and of a
string it is that string unchanged, whatever the string is. -/
theorem colorToString_nil_string (L : Lib) :
    colorToString L .nil = "" ∧ (∀ s : String, colorToString L (.str s) = s) ∧
      colorToString L (.str "") = "" ∧ colorToString L (.str "36") = "36" :=
  ⟨rfl, fun _ => rfl, rfl, rfl⟩

end client
